import Mathlib

/-!
Shallow embedding of the Voice2Code backend (src/backend) and proofs about it.

The Python sources embedded here are:
  * `backend/app.py`            — `process_audio`, `strip_markdown_code_blocks`
  * `backend/dual_stage_llm.py` — `call_ollama_system`, `strip_fencing`,
                                  `fix_simple_python2_prints`, `improve_transcript`,
                                  `generate_code_from_task`
  * `backend/prompt_optimizer.py` — `optimize_prompt`
  * `backend/ollama_wrapper.py` — `get_raw_code`

Strings are modelled at the ASCII level (`Char` lists); network exchanges,
filesystem writes and configuration lookups are passed in as explicit oracle
arguments so that the control flow of each Python function can be embedded as
a pure Lean function.
-/

namespace Voice2Code

/-! ## Python string primitives

Python `str.strip` / `str.lstrip` remove leading/trailing whitespace; `\s` in
a regex matches a whitespace character.  We model the ASCII whitespace class
(Python additionally handles some Unicode space characters, which do not occur
in any string considered here). -/

def isPySpace (c : Char) : Bool :=
  c = ' ' || c = '\t' || c = '\n' || c = '\r' || c = '\x0b' || c = '\x0c'

/-- Python `str.lstrip()` on a character list. -/
def pyLstripL (l : List Char) : List Char := l.dropWhile isPySpace

/-- Python `str.strip()` on a character list: drop whitespace from both ends. -/
def pyStripL (l : List Char) : List Char :=
  (l.dropWhile isPySpace).rdropWhile isPySpace

/-- Python `str.strip()`. -/
def pyStrip (s : String) : String := String.mk (pyStripL s.data)

/-- Python `str.upper()` (ASCII model, via `Char.toUpper`). -/
def pyUpper (s : String) : String := String.mk (s.data.map Char.toUpper)

theorem pyStripL_sublist (l : List Char) : (pyStripL l).Sublist l :=
  (List.rdropWhile_prefix _ _).sublist.trans (List.dropWhile_sublist _)

theorem length_pyStripL_le (l : List Char) : (pyStripL l).length ≤ l.length :=
  (pyStripL_sublist l).length_le

theorem mem_of_mem_pyStripL {l : List Char} {c : Char} (h : c ∈ pyStripL l) : c ∈ l :=
  (pyStripL_sublist l).mem h

/-- If every character of `l` is whitespace, stripping yields the empty list. -/
theorem pyStripL_eq_nil_of_all {l : List Char} (h : ∀ c ∈ l, isPySpace c = true) :
    pyStripL l = [] := by
  unfold pyStripL
  rw [List.dropWhile_eq_nil_iff.mpr (by simpa using h)]
  simp [List.rdropWhile]

/-- If the first and last characters of `l` are not whitespace, stripping changes nothing. -/
theorem pyStripL_eq_self {l : List Char}
    (hhead : ∀ hne : l ≠ [], isPySpace (l.head hne) = false)
    (hlast : ∀ hne : l ≠ [], isPySpace (l.getLast hne) = false) :
    pyStripL l = l := by
  unfold pyStripL
  have h1 : l.dropWhile isPySpace = l := by
    rw [List.dropWhile_eq_self_iff]
    intro hl
    rw [List.get_mk_zero]
    simpa using hhead (List.length_pos.mp hl)
  rw [h1, List.rdropWhile_eq_self_iff]
  intro hne
  simpa using hlast hne

/-- Stripping is idempotent. -/
theorem pyStripL_idem (l : List Char) : pyStripL (pyStripL l) = pyStripL l := by
  unfold pyStripL
  have h1 : ((l.dropWhile isPySpace).rdropWhile isPySpace).dropWhile isPySpace
      = (l.dropWhile isPySpace).rdropWhile isPySpace := by
    rw [List.dropWhile_eq_self_iff]
    intro hl
    rw [List.get_mk_zero]
    have hpre := List.rdropWhile_prefix isPySpace (l.dropWhile isPySpace)
    have hne : (l.dropWhile isPySpace).rdropWhile isPySpace ≠ [] :=
      List.length_pos.mp hl
    rw [hpre.head hne]
    simp only [List.head_dropWhile_not]
    simp
  rw [h1, List.rdropWhile_idempotent]

/-- If a character upper-cases to a non-whitespace character, it is itself
not whitespace (`Char.toUpper` fixes every ASCII whitespace character). -/
theorem isPySpace_of_toUpper {c u : Char} (hu : Char.toUpper c = u)
    (hns : isPySpace u = false) : isPySpace c = false := by
  by_cases h : isPySpace c = true
  · simp only [isPySpace, Bool.or_eq_true, decide_eq_true_eq] at h
    rcases h with ((((h | h) | h) | h) | h) | h <;>
      (subst h; subst hu; exact absurd hns (by decide))
  · simpa using h

/-! ## JSON values

Model of the Python structured data handled by the pipeline (the result of
`resp.json()`, the task objects, the failure dictionaries).  Python dicts are
association lists with distinct keys; lookup returns the first match. -/

inductive Json where
  | null : Json
  | bool : Bool → Json
  | num : Int → Json
  | str : String → Json
  | arr : List Json → Json
  | obj : List (String × Json) → Json

/-- Python dict key lookup (`d[k]` / `k in d`). -/
def lookupKey (kvs : List (String × Json)) (k : String) : Option Json :=
  match kvs with
  | [] => none
  | (k2, v) :: rest => if k2 = k then some v else lookupKey rest k

/-- Python truthiness of a JSON value (`if x:`). -/
def pyTruthy : Json → Bool
  | .null => false
  | .bool b => b
  | .num n => n != 0
  | .str s => s != ""
  | .arr l => !l.isEmpty
  | .obj l => !l.isEmpty

/-- Escaping of one character inside a JSON string literal
(`json.dumps` with `ensure_ascii=False`; the common escapes). -/
def jsonEscapeChar (c : Char) : List Char :=
  if c = '"' then ['\\', '"']
  else if c = '\\' then ['\\', '\\']
  else if c = '\n' then ['\\', 'n']
  else if c = '\t' then ['\\', 't']
  else if c = '\r' then ['\\', 'r']
  else [c]

def jsonQuote (s : String) : String :=
  String.mk ('"' :: ((s.data.map jsonEscapeChar).flatten ++ ['"']))

/- `json.dumps(data, ensure_ascii=False)` with the default separators. -/
mutual

def json_dumps : Json → String
  | .null => "null"
  | .bool true => "true"
  | .bool false => "false"
  | .num n => toString n
  | .str s => jsonQuote s
  | .arr xs => "[" ++ dumpsArr xs ++ "]"
  | .obj kvs => "\x7b" ++ dumpsObj kvs ++ "\x7d"

def dumpsArr : List Json → String
  | [] => ""
  | [x] => json_dumps x
  | x :: y :: xs => json_dumps x ++ ", " ++ dumpsArr (y :: xs)

def dumpsObj : List (String × Json) → String
  | [] => ""
  | [(k, v)] => jsonQuote k ++ ": " ++ json_dumps v
  | (k, v) :: kv2 :: rest => jsonQuote k ++ ": " ++ json_dumps v ++ ", " ++ dumpsObj (kv2 :: rest)

end

/-! ## Response normalizer

`dual_stage_llm.call_ollama_system`, lines 109–130: extraction of the model's
text from the decoded JSON payload.  `.text s` is a successful extraction
(the code returns `s`); `.fallback` means none of the known shapes matched and
the code returns the serialized payload; `.attrError` models the
`AttributeError` raised by `.strip()` when a matched `content` field is not a
string (that exception is not caught by the `except RequestException` clause,
so it would propagate). -/

inductive ExtractOut where
  | text (s : String)
  | attrError
  | fallback
  deriving DecidableEq

/-- The two checks on `choices[0]` (lines 116–122 of `dual_stage_llm.py`). -/
def extractChoices (kvs : List (String × Json)) : ExtractOut :=
  match lookupKey kvs "choices" with
  | some (.arr (first :: _)) =>
    match first with
    | .obj fkvs =>
      match lookupKey fkvs "message" with
      | some (.obj mkvs) =>
        match lookupKey mkvs "content" with
        | some (.str s) => .text (pyStrip s)
        | some _ => .attrError
        | none =>
          match lookupKey fkvs "text" with
          | some (.str s) => .text (pyStrip s)
          | _ => .fallback
      | _ =>
        match lookupKey fkvs "text" with
        | some (.str s) => .text (pyStrip s)
        | _ => .fallback
    | _ => .fallback
  | _ => .fallback

/-- Lines 109–122 of `dual_stage_llm.py`: try `response`, `text`,
`message.content`, `choices[0].message.content`, `choices[0].text`, in that
order, returning the first match. -/
def extract_text (data : Json) : ExtractOut :=
  match data with
  | .obj kvs =>
    match lookupKey kvs "response" with
    | some (.str s) => .text (pyStrip s)
    | _ =>
      match lookupKey kvs "text" with
      | some (.str s) => .text (pyStrip s)
      | _ =>
        match lookupKey kvs "message" with
        | some (.obj mkvs) =>
          match lookupKey mkvs "content" with
          | some (.str s) => .text (pyStrip s)
          | some _ => .attrError
          | none => extractChoices kvs
        | _ => extractChoices kvs
  | _ => .fallback

/-! ## Transport client

`dual_stage_llm.call_ollama_system`, lines 90–145.  The network is an oracle
mapping the attempt index (1-based, as in the Python loop) to the outcome of
one `requests.post` exchange.  The trace records the returned value or the
exception that escaped, the number of attempts made, and the backoff sleeps
performed (in seconds), in order. -/

inductive BackendResult where
  | reqError (e : String)
  | okJson (j : Json)
  | okRaw (t : String)

inductive CallOutcome where
  | returned (s : String)
  | raised (msg : String)
  deriving DecidableEq

structure CallTrace where
  outcome : CallOutcome
  attempts : Nat
  sleeps : List Nat
  deriving DecidableEq

/-- The message of the `RuntimeError` raised at line 145. -/
def runtimeMsg (retries : Nat) (lastErr : Option String) : String :=
  "Ollama API call failed after " ++ toString (retries + 1) ++ " attempts: " ++
    (match lastErr with | some e => e | none => "None")

/-- What one successful (2xx, JSON) exchange makes the function return. -/
def normalizeOutcome (j : Json) : CallOutcome :=
  match extract_text j with
  | .text s => .returned s
  | .attrError => .raised "AttributeError"
  | .fallback => .returned (json_dumps j)

/-- The `for attempt in range(1, retries + 2)` loop.  The first argument after
`retries` is the number of loop iterations still available (fuel), initially
`retries + 1`; `attempt` is the 1-based attempt index. -/
def call_attempt (backend : Nat → BackendResult) (retries : Nat) :
    Nat → Nat → List Nat → Option String → CallTrace
  | 0, attempt, sleeps, lastErr =>
      ⟨.raised (runtimeMsg retries lastErr), attempt - 1, sleeps⟩
  | remaining + 1, attempt, sleeps, _ =>
      match backend attempt with
      | .okJson j => ⟨normalizeOutcome j, attempt, sleeps⟩
      | .okRaw t => ⟨.returned (pyStrip t), attempt, sleeps⟩
      | .reqError e =>
          if attempt ≤ retries then
            call_attempt backend retries remaining (attempt + 1)
              (sleeps ++ [2 ^ (attempt - 1)]) (some e)
          else ⟨.raised (runtimeMsg retries (some e)), attempt, sleeps⟩

/-- `call_ollama_system`, as a function of the network oracle and the
configured retry count (`LLM_RETRY_COUNT`). -/
def call_ollama_system (backend : Nat → BackendResult) (retries : Nat) : CallTrace :=
  call_attempt backend retries (retries + 1) 1 [] none

theorem call_attempt_succ (backend : Nat → BackendResult)
    (retries remaining attempt : Nat) (sleeps : List Nat) (lastErr : Option String) :
    call_attempt backend retries (remaining + 1) attempt sleeps lastErr =
      match backend attempt with
      | .okJson j => ⟨normalizeOutcome j, attempt, sleeps⟩
      | .okRaw t => ⟨.returned (pyStrip t), attempt, sleeps⟩
      | .reqError e =>
          if attempt ≤ retries then
            call_attempt backend retries remaining (attempt + 1)
              (sleeps ++ [2 ^ (attempt - 1)]) (some e)
          else ⟨.raised (runtimeMsg retries (some e)), attempt, sleeps⟩ := rfl

theorem call_attempt_zero (backend : Nat → BackendResult)
    (retries attempt : Nat) (sleeps : List Nat) (lastErr : Option String) :
    call_attempt backend retries 0 attempt sleeps lastErr =
      ⟨.raised (runtimeMsg retries lastErr), attempt - 1, sleeps⟩ := rfl

theorem call_attempt_fail_step (backend : Nat → BackendResult)
    (retries remaining attempt : Nat) (sleeps : List Nat) (lastErr : Option String)
    (e : String) (hb : backend attempt = .reqError e) (hle : attempt ≤ retries) :
    call_attempt backend retries (remaining + 1) attempt sleeps lastErr =
      call_attempt backend retries remaining (attempt + 1)
        (sleeps ++ [2 ^ (attempt - 1)]) (some e) := by
  rw [call_attempt_succ, hb]
  simp [hle]

theorem call_attempt_break_step (backend : Nat → BackendResult)
    (retries remaining attempt : Nat) (sleeps : List Nat) (lastErr : Option String)
    (e : String) (hb : backend attempt = .reqError e) (hgt : ¬ attempt ≤ retries) :
    call_attempt backend retries (remaining + 1) attempt sleeps lastErr =
      ⟨.raised (runtimeMsg retries (some e)), attempt, sleeps⟩ := by
  rw [call_attempt_succ, hb]
  simp [hgt]

theorem call_attempt_ok_step (backend : Nat → BackendResult)
    (retries remaining attempt : Nat) (sleeps : List Nat) (lastErr : Option String)
    (j : Json) (hb : backend attempt = .okJson j) :
    call_attempt backend retries (remaining + 1) attempt sleeps lastErr =
      ⟨normalizeOutcome j, attempt, sleeps⟩ := by
  rw [call_attempt_succ, hb]

/-- C5: each documented response envelope shape carrying the same trimmed inner
text `s` — `{response: s}`, `{text: s}`, `{message: {content: s}}`,
`{choices: [{message: {content: s}}]}`, `{choices: [{text: s}]}` — is
normalized to exactly `s`; the shapes are tried in that order (the last
conjunct shows an earlier shape taking precedence over a later one). -/
theorem normalizer_envelope_shapes (s : String) (hs : pyStrip s = s) :
    extract_text (.obj [("response", .str s)]) = .text s ∧
    extract_text (.obj [("text", .str s)]) = .text s ∧
    extract_text (.obj [("message", .obj [("content", .str s)])]) = .text s ∧
    extract_text (.obj [("choices", .arr [.obj [("message", .obj [("content", .str s)])]])])
      = .text s ∧
    extract_text (.obj [("choices", .arr [.obj [("text", .str s)]])]) = .text s ∧
    extract_text (.obj [("response", .str s), ("text", .str "IGNORED")]) = .text s := by
  refine ⟨?_, ?_, ?_, ?_, ?_, ?_⟩ <;>
    simp [extract_text, extractChoices, lookupKey, hs]

theorem normalizer_envelope_shapes_witness :
    pyStrip "print(42)" = "print(42)" ∧
    extract_text (.obj [("response", .str "print(42)")]) = .text "print(42)" ∧
    extract_text (.obj [("choices", .arr [.obj [("text", .str "print(42)")]])])
      = .text "print(42)" := by
  have h := normalizer_envelope_shapes "print(42)" (by decide)
  exact ⟨by decide, h.1, h.2.2.2.2.1⟩

/-- C6: with retry count at least 2 and a backend failing on the first two
exchanges and succeeding on the third, `call_ollama_system` returns the
normalized success result, makes exactly 3 attempts, and sleeps
`2 ^ (k - 1)` seconds after failed attempt `k` (so sleeps `[1, 2]`). -/
theorem transport_fail_fail_success (backend : Nat → BackendResult) (retries : Nat)
    (e1 e2 : String) (j : Json) (s : String) (h2 : 2 ≤ retries)
    (hb1 : backend 1 = .reqError e1) (hb2 : backend 2 = .reqError e2)
    (hb3 : backend 3 = .okJson j) (hj : extract_text j = .text s) :
    call_ollama_system backend retries = ⟨.returned s, 3, [1, 2]⟩ := by
  obtain ⟨r, rfl⟩ : ∃ r, retries = r + 2 := ⟨retries - 2, by omega⟩
  show call_attempt backend (r + 2) (r + 2 + 1) 1 [] none = _
  rw [call_attempt_fail_step backend (r + 2) (r + 2) 1 [] none e1 hb1 (by omega)]
  show call_attempt backend (r + 2) (r + 1 + 1) 2 [1] (some e1) = _
  rw [call_attempt_fail_step backend (r + 2) (r + 1) 2 [1] (some e1) e2 hb2 (by omega)]
  show call_attempt backend (r + 2) (r + 0 + 1) 3 [1, 2] (some e2) = _
  rw [call_attempt_ok_step backend (r + 2) (r + 0) 3 [1, 2] (some e2) j hb3]
  rw [normalizeOutcome, hj]

theorem transport_fail_fail_success_witness :
    2 ≤ 2 ∧
    call_ollama_system
        (fun k => if k = 1 then .reqError "e1"
          else if k = 2 then .reqError "e2"
          else .okJson (.obj [("response", .str "ok")])) 2 =
      ⟨.returned "ok", 3, [1, 2]⟩ :=
  ⟨by decide,
    transport_fail_fail_success _ 2 "e1" "e2" (.obj [("response", .str "ok")]) "ok"
      (by decide) rfl rfl rfl rfl⟩

theorem call_attempt_all_fail (backend : Nat → BackendResult) (errs : Nat → String)
    (retries : Nat) (hb : ∀ k, backend k = .reqError (errs k)) :
    ∀ (remaining attempt : Nat) (sleeps : List Nat) (lastErr : Option String),
      remaining + attempt = retries + 2 → 1 ≤ attempt →
      ((attempt = 1 ∧ lastErr = none) ∨ lastErr = some (errs (attempt - 1))) →
      (call_attempt backend retries remaining attempt sleeps lastErr).outcome =
        .raised (runtimeMsg retries (some (errs (retries + 1)))) ∧
      (call_attempt backend retries remaining attempt sleeps lastErr).attempts
        = retries + 1 := by
  intro remaining
  induction remaining with
  | zero =>
    intro attempt sleeps lastErr hsum h1 hinv
    have ha : attempt = retries + 2 := by omega
    rcases hinv with ⟨ha1, _⟩ | hle
    · omega
    · rw [call_attempt_zero]
      subst ha
      rw [hle]
      refine ⟨?_, ?_⟩
      · rfl
      · show retries + 2 - 1 = retries + 1
        omega
  | succ rem ih =>
    intro attempt sleeps lastErr hsum h1 hinv
    by_cases hle : attempt ≤ retries
    · rw [call_attempt_fail_step backend retries rem attempt sleeps lastErr
        (errs attempt) (hb attempt) hle]
      refine ih (attempt + 1) _ _ (by omega) (by omega) (Or.inr ?_)
      simp
    · rw [call_attempt_break_step backend retries rem attempt sleeps lastErr
        (errs attempt) (hb attempt) hle]
      have ha : attempt = retries + 1 := by omega
      subst ha
      exact ⟨rfl, rfl⟩

/-- C2 (amended): when every attempt fails at the transport level,
`call_ollama_system` does not return a failure value — it raises a
`RuntimeError` carrying the last underlying error, after `retries + 1`
attempts. -/
theorem transport_exhaustion_raises (backend : Nat → BackendResult)
    (errs : Nat → String) (retries : Nat) (hb : ∀ k, backend k = .reqError (errs k)) :
    (call_ollama_system backend retries).outcome =
      .raised (runtimeMsg retries (some (errs (retries + 1)))) ∧
    (call_ollama_system backend retries).attempts = retries + 1 :=
  call_attempt_all_fail backend errs retries hb (retries + 1) 1 [] none
    (by omega) (by omega) (Or.inl ⟨rfl, rfl⟩)

theorem transport_exhaustion_raises_witness :
    (call_ollama_system (fun _ => .reqError "boom") 1).outcome =
      .raised (runtimeMsg 1 (some "boom")) ∧
    (call_ollama_system (fun _ => .reqError "boom") 1).attempts = 2 :=
  transport_exhaustion_raises (fun _ => .reqError "boom") (fun _ => "boom") 1
    (fun _ => rfl)

/-- C2 (counterexample): with a backend that always fails and the default
retry count 2, the call raises a `RuntimeError` (it does not return a
`TransportFailure` value to its caller: the exception escapes the client). -/
theorem transport_exhaustion_counterexample :
    call_ollama_system (fun _ => .reqError "connection refused") 2 =
      ⟨.raised "Ollama API call failed after 3 attempts: connection refused",
        3, [1, 2]⟩ := by
  decide

/-! ## Fence stripper

`dual_stage_llm.strip_fencing`, lines 147–179. -/

/-- `str.replace("\r\n", "\n")`: left-to-right, non-overlapping. -/
def replaceCRLF : List Char → List Char
  | '\r' :: '\n' :: rest => '\n' :: replaceCRLF rest
  | c :: rest => c :: replaceCRLF rest
  | [] => []

/-- The regex class `[\w+-]` (ASCII model of `\w`). -/
def isWordPlusDash (c : Char) : Bool :=
  c.isAlphanum || c = '_' || c = '+' || c = '-'

/-- Lazy search for the closing fence: the shortest prefix (the regex group
`(.*?)` under `re.DOTALL`) followed by three backticks; returns the group and
what follows the closing fence. -/
def takeUntilFence : List Char → Option (List Char × List Char)
  | [] => none
  | c :: rest =>
    if "```".data.isPrefixOf (c :: rest) then some ([], (c :: rest).drop 3)
    else
      match takeUntilFence rest with
      | some (i, a) => some (c :: i, a)
      | none => none

/-- Match of `` ```(?:[\w+-]*)\n(.*?)``` `` anchored at the head of `l`:
the opening fence, a greedy run of word characters (the optional language
tag, which can only succeed when followed by a newline), the lazy group and
the closing fence.  Returns the group and the remainder after the match. -/
def matchFenceAt (l : List Char) : Option (List Char × List Char) :=
  if "```".data.isPrefixOf l then
    match (l.drop 3).dropWhile isWordPlusDash with
    | '\n' :: rest => takeUntilFence rest
    | _ => none
  else none

/-- `re.findall` scan: try to match at each position, resuming after the end
of each full match.  Fuel decreases by at least one character per step, so
`l.length` fuel always suffices (see the length lemmas below). -/
def findFencesFuel : Nat → List Char → List (List Char)
  | 0, _ => []
  | _, [] => []
  | fuel + 1, c :: rest =>
    match matchFenceAt (c :: rest) with
    | some (inner, after) => inner :: findFencesFuel fuel after
    | none => findFencesFuel fuel rest

theorem takeUntilFence_length :
    ∀ {l i a : List Char}, takeUntilFence l = some (i, a) → a.length < l.length := by
  intro l
  induction l with
  | nil => intro i a h; simp [takeUntilFence] at h
  | cons c rest ih =>
    intro i a h
    by_cases hp : "```".data.isPrefixOf (c :: rest) = true
    · rw [takeUntilFence, if_pos hp] at h
      injection h with h2
      injection h2 with h3 h4
      subst h4
      simp [List.length_drop]
      omega
    · rw [takeUntilFence, if_neg hp] at h
      cases ht : takeUntilFence rest with
      | none => rw [ht] at h; simp at h
      | some pr =>
        obtain ⟨i2, a2⟩ := pr
        rw [ht] at h
        simp only [Option.some.injEq, Prod.mk.injEq] at h
        obtain ⟨-, ha⟩ := h
        subst ha
        have := ih ht
        simp only [List.length_cons]
        omega

theorem matchFenceAt_length {l i a : List Char} (h : matchFenceAt l = some (i, a)) :
    a.length < l.length := by
  rw [matchFenceAt] at h
  split at h
  · split at h
    · rename_i rest hd
      have h1 := takeUntilFence_length h
      have h2 : ('\n' :: rest).length ≤ (l.drop 3).length := by
        rw [← hd]
        exact (List.dropWhile_sublist _).length_le
      have h3 : (l.drop 3).length ≤ l.length := by
        simp [List.length_drop]
      simp only [List.length_cons] at h2
      omega
    · simp at h
  · simp at h

/-- The named character references recognised by the model of
`html.unescape` (the XML/XHTML entities; Python's full table is far larger,
but the fast path below — no ampersand, no change — is exact, and it is the
only path exercised by the theorems in this file). -/
def namedEntities : List (List Char × Char) :=
  [("&amp;".data, '&'), ("&lt;".data, '<'), ("&gt;".data, '>'),
   ("&quot;".data, '"'), ("&#39;".data, '\''), ("&apos;".data, '\'')]

def unescapeEntitiesFuel : Nat → List Char → List Char
  | 0, l => l
  | _, [] => []
  | fuel + 1, c :: rest =>
    if c = '&' then
      match namedEntities.find? (fun p => p.1.isPrefixOf (c :: rest)) with
      | some (pat, ch) => ch :: unescapeEntitiesFuel fuel ((c :: rest).drop pat.length)
      | none => c :: unescapeEntitiesFuel fuel rest
    else c :: unescapeEntitiesFuel fuel rest

/-- `html.unescape`: returns the input unchanged when it contains no
ampersand (Python's exact fast path), otherwise substitutes character
references. -/
def html_unescape (s : String) : String :=
  if s.data.contains '&' then String.mk (unescapeEntitiesFuel s.data.length s.data)
  else s

/-- `sep.join(xs)`. -/
def joinSepL (sep : List Char) : List (List Char) → List Char
  | [] => []
  | [x] => x
  | x :: y :: xs => x ++ sep ++ joinSepL sep (y :: xs)

/-- `re.findall(fence_pattern, t)` on the normalized text. -/
def fencesOf (l : List Char) : List (List Char) := findFencesFuel l.length l

/-- Lines 161–179 of `strip_fencing`, applied to the stripped,
CRLF-normalized text. -/
def stripFencingCore (t : List Char) : String :=
  if !(fencesOf t).isEmpty then
    html_unescape (String.mk (pyStripL (joinSepL "\n\n".data
      (((fencesOf t).filter (fun m => !m.isEmpty && !(pyStripL m).isEmpty)).map pyStripL))))
  else
    pyStrip (html_unescape (String.mk (t.filter (fun c => c != '\x60'))))

/-- `dual_stage_llm.strip_fencing`, lines 147–179. -/
def strip_fencing (text : String) : String :=
  if text = "" then ""
  else stripFencingCore (replaceCRLF (pyStripL text.data))

theorem replaceCRLF_eq_self : ∀ {l : List Char}, '\r' ∉ l → replaceCRLF l = l := by
  intro l
  induction l with
  | nil => intro _; rfl
  | cons c rest ih =>
    intro h
    have hc : c ≠ '\r' := by
      intro hh
      exact h (hh ▸ List.mem_cons_self c rest)
    have hrest : '\r' ∉ rest := fun hh => h (List.mem_cons_of_mem c hh)
    rw [replaceCRLF.eq_def]
    split
    · rename_i heq
      injection heq with h1 h2
      exact absurd h1 hc
    · rename_i c2 rest2 heq
      injection heq with h1 h2
      subst h1; subst h2
      rw [ih hrest]
    · rename_i heq
      cases heq

theorem matchFenceAt_eq_none_of_no_backtick {c : Char} {rest : List Char}
    (hc : c ≠ '\x60') : matchFenceAt (c :: rest) = none := by
  have h : ¬ ("```".data.isPrefixOf (c :: rest) = true) := by
    rw [show ("```".data : List Char) = '\x60' :: '\x60' :: '\x60' :: [] from rfl,
      List.isPrefixOf_iff_prefix, List.cons_prefix_cons]
    rintro ⟨h1, -⟩
    exact hc h1.symm
  rw [matchFenceAt, if_neg h]

theorem findFencesFuel_eq_nil_of_no_backtick :
    ∀ (fuel : Nat) {l : List Char}, '\x60' ∉ l → findFencesFuel fuel l = [] := by
  intro fuel
  induction fuel with
  | zero => intro l _; cases l <;> rfl
  | succ f ih =>
    intro l h
    cases l with
    | nil => rfl
    | cons c rest =>
      have hc : c ≠ '\x60' := by
        intro hh
        exact h (hh ▸ List.mem_cons_self c rest)
      rw [findFencesFuel, matchFenceAt_eq_none_of_no_backtick hc]
      exact ih fun hh => h (List.mem_cons_of_mem c hh)

theorem html_unescape_eq_self {s : String} (h : '&' ∉ s.data) : html_unescape s = s := by
  rw [html_unescape, if_neg]
  simpa using h

/-- On a string with no backtick, no ampersand and no carriage return,
`strip_fencing` is exactly Python `str.strip()`. -/
theorem strip_fencing_of_plain (t : String) (hbt : '\x60' ∉ t.data)
    (hamp : '&' ∉ t.data) (hcr : '\r' ∉ t.data) :
    strip_fencing t = String.mk (pyStripL t.data) := by
  by_cases ht : t = ""
  · subst ht; rfl
  · have hsub : ∀ c ∈ pyStripL t.data, c ∈ t.data := fun c hc => mem_of_mem_pyStripL hc
    have hcr2 : '\r' ∉ pyStripL t.data := fun hh => hcr (hsub _ hh)
    have hbt2 : '\x60' ∉ pyStripL t.data := fun hh => hbt (hsub _ hh)
    have hfen : fencesOf (pyStripL t.data) = [] :=
      findFencesFuel_eq_nil_of_no_backtick _ hbt2
    have hfilter : (pyStripL t.data).filter (fun c => c != '\x60') = pyStripL t.data := by
      rw [List.filter_eq_self]
      intro c hc
      simp only [bne_iff_ne, ne_eq]
      intro hh
      exact hbt2 (hh ▸ hc)
    rw [strip_fencing, if_neg ht, replaceCRLF_eq_self hcr2]
    simp only [stripFencingCore, hfen, hfilter, List.isEmpty_nil, Bool.not_true,
      Bool.false_eq_true, if_false]
    rw [html_unescape_eq_self (s := String.mk (pyStripL t.data))
      (fun hh => hamp (hsub _ hh))]
    show String.mk (pyStripL (pyStripL t.data)) = String.mk (pyStripL t.data)
    rw [pyStripL_idem]

/-- C4 (amended): `strip_fencing` is idempotent on every input containing no
backtick, no ampersand and no carriage return.  (On other inputs it need not
be: a second pass deletes backticks that the first pass kept inside a fenced
block, re-unescapes HTML entities, and re-collapses `\r\n`.) -/
theorem strip_fencing_idem_plain (t : String) (hbt : '\x60' ∉ t.data)
    (hamp : '&' ∉ t.data) (hcr : '\r' ∉ t.data) :
    strip_fencing (strip_fencing t) = strip_fencing t := by
  have h1 := strip_fencing_of_plain t hbt hamp hcr
  have hsub : ∀ c ∈ pyStripL t.data, c ∈ t.data := fun c hc => mem_of_mem_pyStripL hc
  have h2 := strip_fencing_of_plain (String.mk (pyStripL t.data))
    (fun hh => hbt (hsub _ hh)) (fun hh => hamp (hsub _ hh)) (fun hh => hcr (hsub _ hh))
  rw [h1, h2]
  show String.mk (pyStripL (pyStripL t.data)) = String.mk (pyStripL t.data)
  rw [pyStripL_idem]

theorem strip_fencing_idem_plain_witness :
    ('\x60' ∉ ("  x = 1 + 2\n").data ∧ '&' ∉ ("  x = 1 + 2\n").data ∧
      '\r' ∉ ("  x = 1 + 2\n").data) ∧
    strip_fencing (strip_fencing "  x = 1 + 2\n") = strip_fencing "  x = 1 + 2\n" :=
  ⟨by decide,
    strip_fencing_idem_plain "  x = 1 + 2\n" (by decide) (by decide) (by decide)⟩

/-- C4 (counterexample): stripping twice differs from stripping once on
`"```\na`b\n```"` — the first pass extracts the fenced block `a`b` keeping
its inner backtick, the second pass finds no fence and deletes the backtick. -/
theorem strip_fencing_not_idempotent :
    strip_fencing (strip_fencing "```\na`b\n```") ≠ strip_fencing "```\na`b\n```" := by
  decide

/-! ## Legacy print-statement repair

`dual_stage_llm.fix_simple_python2_prints`, lines 181–201. -/

/-- The line-break characters recognised by Python `str.splitlines()`. -/
def isLineBreak (c : Char) : Bool :=
  c = '\n' || c = '\r' || c = '\x0b' || c = '\x0c' ||
  c = '\x1c' || c = '\x1d' || c = '\x1e' || c = '\x85' ||
  c = '\u2028' || c = '\u2029'

/-- Python `str.splitlines()`: split at every line break, `\r\n` counting as
one break, with no trailing empty line for a terminal break.  Fueled for
structural recursion; each step consumes at least one character, so
`l.length` fuel always suffices. -/
def pySplitlinesFuel : Nat → List Char → List (List Char)
  | 0, _ => []
  | _, [] => []
  | fuel + 1, c :: rest =>
    if isLineBreak c then
      if c = '\r' then
        match rest with
        | '\n' :: r2 => [] :: pySplitlinesFuel fuel r2
        | _ => [] :: pySplitlinesFuel fuel rest
      else [] :: pySplitlinesFuel fuel rest
    else
      match pySplitlinesFuel fuel rest with
      | [] => [[c]]
      | line :: more => (c :: line) :: more

def pySplitlinesL (l : List Char) : List (List Char) := pySplitlinesFuel l.length l

/-- Python `s.split("\n")` (used to state the line-count claim). -/
def splitOnNLL : List Char → List (List Char)
  | [] => [[]]
  | c :: rest =>
    if c = '\n' then [] :: splitOnNLL rest
    else
      match splitOnNLL rest with
      | [] => [[c]]
      | line :: more => (c :: line) :: more

def splitOnNL (s : String) : List String := (splitOnNLL s.data).map String.mk

/-- `"\n".join(lines)`. -/
def joinNL : List (List Char) → List Char
  | [] => []
  | [x] => x
  | x :: y :: xs => x ++ '\n' :: joinNL (y :: xs)

/-- `re.match(r"print\s+(.+)$", stripped)`, returning the text of group 1.
The function is only ever applied to `splitlines()` output, so the input
contains no line-break character; `$` is then end-of-string and `.` matches
every remaining character.  The greedy/lazy resolution: after `print`, the
maximal whitespace run is consumed; the group is the non-empty remainder if
there is one, otherwise (backtracking one character into `\s+`) the last
whitespace character provided the run had length at least 2. -/
def matchPrintRe (stripped : List Char) : Option (List Char) :=
  if "print".data.isPrefixOf stripped then
    let t := stripped.drop 5
    let w := t.takeWhile isPySpace
    let rest := t.dropWhile isPySpace
    if w.isEmpty then none
    else if !rest.isEmpty then some rest
    else if 2 ≤ w.length then
      match w.getLast? with
      | some c => some [c]
      | none => none
    else none
  else none

/-- The body of the per-line loop of `fix_simple_python2_prints`
(lines 188–200). -/
def fixPrintLineL (line : List Char) : List Char :=
  let stripped := pyLstripL line
  let indent := line.take (line.length - stripped.length)
  match matchPrintRe stripped with
  | some g =>
    if !("print(".data.isPrefixOf stripped) && !("print)".data.isPrefixOf stripped) then
      if !(">>".data.isPrefixOf (pyStripL g)) then
        indent ++ "print(".data ++ pyStripL g ++ [')']
      else line
    else line
  | none => line

def fix_print_line (line : String) : String := String.mk (fixPrintLineL line.data)

/-- `dual_stage_llm.fix_simple_python2_prints`, lines 181–201. -/
def fix_simple_python2_prints (code : String) : String :=
  String.mk (joinNL ((pySplitlinesL code.data).map fixPrintLineL))

/-- "The line begins with the legacy print-statement form": the regex of
line 192 matches the lstripped line. -/
def beginsWithLegacyPrint (line : String) : Bool :=
  (matchPrintRe (pyLstripL line.data)).isSome

/-- "The line is already in call form": the lstripped line starts with
`print(` (the code's own test, line 193). -/
def isCallForm (line : String) : Bool :=
  "print(".data.isPrefixOf (pyLstripL line.data)

theorem fixPrintLineL_eq_of_not_legacy {line : List Char}
    (h : matchPrintRe (pyLstripL line) = none) : fixPrintLineL line = line := by
  rw [fixPrintLineL]
  simp only [h]

theorem fixPrintLineL_eq_of_callform {line : List Char}
    (h : "print(".data.isPrefixOf (pyLstripL line) = true) : fixPrintLineL line = line := by
  rw [fixPrintLineL]
  cases hm : matchPrintRe (pyLstripL line) with
  | none => rfl
  | some g => simp [h]

/-- C7: the repair pass rewrites a line only when it begins with the legacy
print-statement form and is not already in call form; every line already in
call form is left unchanged. -/
theorem legacy_print_repair_guard (line : String) :
    (isCallForm line = true → fix_print_line line = line) ∧
    (fix_print_line line ≠ line →
      beginsWithLegacyPrint line = true ∧ isCallForm line = false) := by
  constructor
  · intro hcall
    show String.mk (fixPrintLineL line.data) = line
    rw [fixPrintLineL_eq_of_callform hcall]
  · intro hne
    by_cases hcall : isCallForm line = true
    · exact absurd (by
        show String.mk (fixPrintLineL line.data) = line
        rw [fixPrintLineL_eq_of_callform hcall]) hne
    · cases hm : matchPrintRe (pyLstripL line.data) with
      | none =>
        exact absurd (by
          show String.mk (fixPrintLineL line.data) = line
          rw [fixPrintLineL_eq_of_not_legacy hm]) hne
      | some g =>
        refine ⟨by simp [beginsWithLegacyPrint, hm], by simpa using hcall⟩

theorem legacy_print_repair_guard_witness :
    (isCallForm "  print(1)" = true ∧ fix_print_line "  print(1)" = "  print(1)") ∧
    (fix_print_line "  print 2" ≠ "  print 2" ∧
      beginsWithLegacyPrint "  print 2" = true ∧ isCallForm "  print 2" = false) :=
  ⟨⟨by decide, (legacy_print_repair_guard "  print(1)").1 (by decide)⟩,
    by decide, (legacy_print_repair_guard "  print 2").2 (by decide)⟩

theorem pySplitlinesFuel_cons (f : Nat) (c : Char) (rest : List Char) :
    pySplitlinesFuel (f + 1) (c :: rest) =
      if isLineBreak c then
        if c = '\r' then
          match rest with
          | '\n' :: r2 => [] :: pySplitlinesFuel f r2
          | _ => [] :: pySplitlinesFuel f rest
        else [] :: pySplitlinesFuel f rest
      else
        match pySplitlinesFuel f rest with
        | [] => [[c]]
        | line :: more => (c :: line) :: more := rfl

theorem splitOnNLL_cons (c : Char) (rest : List Char) :
    splitOnNLL (c :: rest) =
      if c = '\n' then [] :: splitOnNLL rest
      else
        match splitOnNLL rest with
        | [] => [[c]]
        | line :: more => (c :: line) :: more := rfl

theorem splitOnNLL_ne_nil (l : List Char) : splitOnNLL l ≠ [] := by
  induction l with
  | nil => simp [splitOnNLL]
  | cons c rest ih =>
    rw [splitOnNLL_cons]
    by_cases hc : c = '\n'
    · simp [hc]
    · rw [if_neg hc]
      cases hs : splitOnNLL rest <;> simp

theorem splitOnNLL_no_newline : ∀ (l : List Char), ∀ x ∈ splitOnNLL l, '\n' ∉ x := by
  intro l
  induction l with
  | nil =>
    intro x hx
    simp only [splitOnNLL, List.mem_singleton] at hx
    subst hx
    simp
  | cons c rest ih =>
    intro x hx
    rw [splitOnNLL_cons] at hx
    by_cases hc : c = '\n'
    · rw [if_pos hc] at hx
      rcases List.mem_cons.mp hx with rfl | hx2
      · simp
      · exact ih x hx2
    · rw [if_neg hc] at hx
      cases hs : splitOnNLL rest with
      | nil => exact absurd hs (splitOnNLL_ne_nil rest)
      | cons line more =>
        rw [hs] at hx
        rcases List.mem_cons.mp hx with rfl | hx2
        · intro hmem
          rcases List.mem_cons.mp hmem with h1 | h2
          · exact hc h1.symm
          · exact ih line (by rw [hs]; exact List.mem_cons_self ..) h2
        · exact ih x (by rw [hs]; exact List.mem_cons_of_mem _ hx2)

theorem splitOnNLL_of_no_newline : ∀ {x : List Char}, '\n' ∉ x → splitOnNLL x = [x] := by
  intro x
  induction x with
  | nil => intro _; rfl
  | cons c rest ih =>
    intro h
    have hc : c ≠ '\n' := fun hh => h (hh ▸ List.mem_cons_self ..)
    rw [splitOnNLL_cons, if_neg hc, ih (fun hh => h (List.mem_cons_of_mem _ hh))]

theorem splitOnNLL_append_newline {x : List Char} (h : '\n' ∉ x) (m : List Char) :
    splitOnNLL (x ++ '\n' :: m) = x :: splitOnNLL m := by
  induction x with
  | nil => simp [splitOnNLL_cons]
  | cons c rest ih =>
    have hc : c ≠ '\n' := fun hh => h (hh ▸ List.mem_cons_self ..)
    rw [List.cons_append, splitOnNLL_cons, if_neg hc,
      ih (fun hh => h (List.mem_cons_of_mem _ hh))]

theorem splitOnNLL_joinNL : ∀ (ls : List (List Char)), ls ≠ [] →
    (∀ x ∈ ls, '\n' ∉ x) → splitOnNLL (joinNL ls) = ls := by
  intro ls
  induction ls with
  | nil => intro h _; exact absurd rfl h
  | cons x ys ih =>
    intro _ hnl
    cases ys with
    | nil =>
      rw [show joinNL [x] = x from rfl, splitOnNLL_of_no_newline (hnl x (by simp))]
    | cons y ys2 =>
      rw [show joinNL (x :: y :: ys2) = x ++ '\n' :: joinNL (y :: ys2) from rfl]
      rw [splitOnNLL_append_newline (hnl x (by simp))]
      rw [ih (by simp) (fun z hz => hnl z (List.mem_cons_of_mem _ hz))]

theorem pySplitlinesFuel_eq_splitOnNLL :
    ∀ (fuel : Nat) (l : List Char), l.length ≤ fuel → l ≠ [] →
      (∀ c ∈ l, isLineBreak c = true → c = '\n') →
      (∀ c, l.getLast? = some c → isLineBreak c = false) →
      pySplitlinesFuel fuel l = splitOnNLL l := by
  intro fuel
  induction fuel with
  | zero =>
    intro l hlen hne _ _
    cases l with
    | nil => exact absurd rfl hne
    | cons c rest => simp at hlen
  | succ f ih =>
    intro l hlen hne hnb hlast
    cases l with
    | nil => exact absurd rfl hne
    | cons c rest =>
      simp only [List.length_cons, Nat.add_le_add_iff_right] at hlen
      by_cases hcn : c = '\n'
      · subst hcn
        rw [pySplitlinesFuel_cons, if_pos (by decide), if_neg (by decide),
          splitOnNLL_cons, if_pos rfl]
        have hrne : rest ≠ [] := by
          intro hr
          subst hr
          have := hlast '\n' rfl
          simp [isLineBreak] at this
        congr 1
        refine ih rest hlen hrne ?_ ?_
        · exact fun c2 hc2 hb2 => hnb c2 (List.mem_cons_of_mem _ hc2) hb2
        · intro c2 hc2
          refine hlast c2 ?_
          cases rest with
          | nil => exact absurd rfl hrne
          | cons r1 r2 =>
            rw [List.getLast?_cons_cons]
            exact hc2
      · have hb : isLineBreak c = false := by
          cases hbc : isLineBreak c
          · rfl
          · exact absurd (hnb c (List.mem_cons_self ..) hbc) hcn
        rw [pySplitlinesFuel_cons, if_neg (by simp [hb]), splitOnNLL_cons, if_neg hcn]
        cases rest with
        | nil =>
          have h1 : pySplitlinesFuel f [] = [] := by cases f <;> rfl
          rw [h1, show splitOnNLL [] = [[]] from rfl]
        | cons r1 r2 =>
          have hrec : pySplitlinesFuel f (r1 :: r2) = splitOnNLL (r1 :: r2) := by
            refine ih (r1 :: r2) hlen (by simp) ?_ ?_
            · exact fun c2 hc2 hb2 => hnb c2 (List.mem_cons_of_mem _ hc2) hb2
            · intro c2 hc2
              refine hlast c2 ?_
              rw [List.getLast?_cons_cons]
              exact hc2
          rw [hrec]

theorem pySplitlinesL_eq_splitOnNLL {l : List Char} (hne : l ≠ [])
    (hnb : ∀ c ∈ l, isLineBreak c = true → c = '\n')
    (hlast : ∀ c, l.getLast? = some c → isLineBreak c = false) :
    pySplitlinesL l = splitOnNLL l :=
  pySplitlinesFuel_eq_splitOnNLL l.length l le_rfl hne hnb hlast

theorem matchPrintRe_mem {s g : List Char} (h : matchPrintRe s = some g) :
    ∀ c ∈ g, c ∈ s := by
  intro c hc
  simp only [matchPrintRe] at h
  split_ifs at h with h1 h2 h3 h4
  · injection h with h5
    subst h5
    exact (List.drop_sublist 5 s).mem ((List.dropWhile_sublist _).mem hc)
  · split at h
    · rename_i c0 hlast
      injection h with h5
      subst h5
      simp only [List.mem_singleton] at hc
      subst hc
      have hw : c ∈ (s.drop 5).takeWhile isPySpace := List.mem_of_getLast?_eq_some hlast
      exact (List.drop_sublist 5 s).mem ((List.takeWhile_sublist _).mem hw)
    · simp at h

theorem no_newline_fixPrintLineL {line : List Char} (h : '\n' ∉ line) :
    '\n' ∉ fixPrintLineL line := by
  simp only [fixPrintLineL]
  split
  · rename_i g hm
    split
    · split
      · intro hmem
        simp only [List.append_assoc, List.mem_append, List.mem_singleton] at hmem
        rcases hmem with h3 | h3 | h3 | h3
        · exact h ((List.take_sublist _ _).mem h3)
        · exact absurd h3 (by decide)
        · have h4 : '\n' ∈ g := mem_of_mem_pyStripL h3
          have h5 : '\n' ∈ pyLstripL line := matchPrintRe_mem hm _ h4
          exact h ((List.dropWhile_sublist _).mem h5)
        · exact absurd h3 (by decide)
      · exact h
    · exact h
  · exact h

/-- C10 (counterexample): `fix_simple_python2_prints` does not preserve the
number of lines obtained by splitting on newlines — a trailing newline is
dropped (`splitlines()` of `"a\n"` is `["a"]`, rejoined as `"a"`). -/
theorem print_repair_line_count_counterexample :
    (splitOnNL (fix_simple_python2_prints "a\n")).length = 1 ∧
    (splitOnNL "a\n").length = 2 := by
  decide

/-- C10 (amended): provided the input contains no line-break characters other
than `\n` and does not end with a line break, `fix_simple_python2_prints`
preserves the line structure: splitting the output on newlines gives exactly
the per-line image of the input's lines (in particular the same number of
lines), and every line that does not begin with the legacy print form is
unchanged byte-for-byte (indentation included). -/
theorem print_repair_preserves_lines (code : String)
    (hnb : ∀ c ∈ code.data, isLineBreak c = true → c = '\n')
    (hlastb : code.data.getLast?.all (fun c => !isLineBreak c) = true) :
    splitOnNL (fix_simple_python2_prints code) = (splitOnNL code).map fix_print_line ∧
    (splitOnNL (fix_simple_python2_prints code)).length = (splitOnNL code).length ∧
    ∀ line ∈ splitOnNL code,
      beginsWithLegacyPrint line = false → fix_print_line line = line := by
  have h3 : ∀ line : String, beginsWithLegacyPrint line = false → fix_print_line line = line := by
    intro line hleg
    cases hm : matchPrintRe (pyLstripL line.data) with
    | none =>
      show String.mk (fixPrintLineL line.data) = line
      rw [fixPrintLineL_eq_of_not_legacy hm]
    | some g =>
      rw [beginsWithLegacyPrint, hm] at hleg
      simp at hleg
  have hlast : ∀ c, code.data.getLast? = some c → isLineBreak c = false := by
    intro c hc
    rw [hc] at hlastb
    simpa using hlastb
  obtain ⟨cd⟩ := code
  have hmain : splitOnNL (fix_simple_python2_prints (String.mk cd))
      = (splitOnNL (String.mk cd)).map fix_print_line := by
    by_cases he : cd = []
    · subst he
      decide
    · have h1 : pySplitlinesL cd = splitOnNLL cd := pySplitlinesL_eq_splitOnNLL he hnb hlast
      have hnl : ∀ x ∈ splitOnNLL cd, '\n' ∉ x := splitOnNLL_no_newline cd
      have hnl2 : ∀ x ∈ (splitOnNLL cd).map fixPrintLineL, '\n' ∉ x := by
        intro x hx
        obtain ⟨y, hy, rfl⟩ := List.mem_map.mp hx
        exact no_newline_fixPrintLineL (hnl y hy)
      have hne2 : (splitOnNLL cd).map fixPrintLineL ≠ [] := by
        intro hh
        rw [List.map_eq_nil_iff] at hh
        exact splitOnNLL_ne_nil cd hh
      show (splitOnNLL (joinNL ((pySplitlinesL cd).map fixPrintLineL))).map String.mk
          = ((splitOnNLL cd).map String.mk).map fix_print_line
      rw [h1, splitOnNLL_joinNL _ hne2 hnl2, List.map_map, List.map_map]
      rfl
  exact ⟨hmain, by rw [hmain]; simp, fun line _ hleg => h3 line hleg⟩

theorem print_repair_preserves_lines_witness :
    ((∀ c ∈ ("x = 1\nprint 2").data, isLineBreak c = true → c = '\n') ∧
      ("x = 1\nprint 2").data.getLast?.all (fun c => !isLineBreak c) = true) ∧
    splitOnNL (fix_simple_python2_prints "x = 1\nprint 2")
      = (splitOnNL "x = 1\nprint 2").map fix_print_line :=
  ⟨⟨by decide, by decide⟩,
    (print_repair_preserves_lines "x = 1\nprint 2" (by decide) (by decide)).1⟩

/-! ## Pipeline orchestrator

`app.py`, `process_audio` (lines 51–166) and `strip_markdown_code_blocks`
(lines 11–29).  The transcription result is given; `optimize_prompt` and
`get_raw_code` are oracles (both are total functions returning strings, see
the `optimize_prompt` model below and `get_raw_code`, which returns `""` on
every failure path); `load_coder_config` is given as the loaded
template/language pair.  The run records the outcome, whether each agent was
invoked, and the exact prompt handed to Agent 2. -/

/-- `app.strip_markdown_code_blocks`, lines 11–29. -/
def strip_markdown_code_blocks (code : String) : String :=
  let c1 := pyStripL code.data
  let c2 :=
    if "```".data.isPrefixOf c1 then
      if (c1.dropWhile (fun x => x != '\n')).isEmpty then c1
      else (c1.dropWhile (fun x => x != '\n')).drop 1
    else c1
  let c3 := if "```".data.isSuffixOf c2 then c2.take (c2.length - 3) else c2
  String.mk (pyStripL c3)

/-- The blank-audio markers of `app.py` line 84. -/
def blankSentinels : List String :=
  ["[BLANK_AUDIO]", "(BLANK_AUDIO)", "[SILENCE]", "(SILENCE)", "[BLANK]", "(BLANK)"]

/-- `cleaned_text.replace(".", "").replace(",", "").replace("!", "").replace("?", "")`. -/
def stripPunct (s : String) : String :=
  String.mk (s.data.filter (fun c => c != '.' && c != ',' && c != '!' && c != '?'))

/-- Python `str.capitalize()`. -/
def pyCapitalize (s : String) : String :=
  match s.data with
  | [] => ""
  | c :: rest => String.mk (Char.toUpper c :: rest.map Char.toLower)

/-- Python `str.replace(pat, rep)` for a non-empty pattern: left-to-right,
non-overlapping.  Fueled; each step consumes at least one character. -/
def replacePatFuel (pat rep : List Char) : Nat → List Char → List Char
  | 0, l => l
  | _, [] => []
  | fuel + 1, c :: rest =>
    if !pat.isEmpty && pat.isPrefixOf (c :: rest) then
      rep ++ replacePatFuel pat rep fuel ((c :: rest).drop pat.length)
    else c :: replacePatFuel pat rep fuel rest

def pyReplace (s pat rep : String) : String :=
  String.mk (replacePatFuel pat.data rep.data s.data.length s.data)

/-- Python `sub in s`. -/
def containsSubstrL (pat : List Char) : List Char → Bool
  | [] => pat.isEmpty
  | c :: rest => pat.isPrefixOf (c :: rest) || containsSubstrL pat rest

inductive PipelineResult where
  | noAudio
  | configError (msg : String)
  | coderFailed
  | success (code : String)
  deriving DecidableEq

structure PipelineRun where
  result : PipelineResult
  stage1Invoked : Bool
  stage2Invoked : Bool
  coderPrompt : Option String
  deriving DecidableEq

/-- `app.process_audio` after transcription (lines 74–166). -/
def process_audio (transcribed_text : String) (optimizer coder : String → String)
    (cfgTemplate cfgLanguage : String) : PipelineRun :=
  if transcribed_text = "" ∨ pyStrip transcribed_text = "" then
    ⟨.noAudio, false, false, none⟩
  else if pyUpper (pyStrip transcribed_text) ∈ blankSentinels then
    ⟨.noAudio, false, false, none⟩
  else if (pyStrip transcribed_text).data.length < 3 ∨
      pyStrip (stripPunct (pyStrip transcribed_text)) = "" then
    ⟨.noAudio, false, false, none⟩
  else
    let optimized0 := optimizer transcribed_text
    let optimized_prompt := if optimized0 = "" then transcribed_text else optimized0
    if containsSubstrL "Error".data cfgTemplate.data then
      ⟨.configError cfgTemplate, true, false, none⟩
    else
      let coder_prompt := pyReplace cfgTemplate "\x7blanguage\x7d" (pyCapitalize cfgLanguage)
      let full_prompt := coder_prompt ++ "\n\n" ++ optimized_prompt
      let raw_code := coder full_prompt
      if raw_code = "" then ⟨.coderFailed, true, true, some full_prompt⟩
      else ⟨.success (strip_markdown_code_blocks raw_code), true, true, some full_prompt⟩

theorem pyStrip_eq_self_of_map_upper {l sd : List Char}
    (hmap : l.map Char.toUpper = sd) (hne : sd ≠ [])
    (hh : isPySpace (sd.head hne) = false)
    (hl : isPySpace (sd.getLast hne) = false) :
    pyStripL l = l := by
  have hlne : l ≠ [] := by
    intro h0
    subst h0
    simp at hmap
    exact hne hmap
  apply pyStripL_eq_self
  · intro _
    refine isPySpace_of_toUpper (u := sd.head hne) ?_ hh
    subst hmap
    exact (List.head_map _ _ _).symm
  · intro _
    refine isPySpace_of_toUpper (u := sd.getLast hne) ?_ hl
    subst hmap
    exact (List.getLast_map _ _ _).symm

theorem pyStrip_eq_self_of_upper_sentinel {t : String} (h : pyUpper t ∈ blankSentinels) :
    pyStrip t = t := by
  simp only [blankSentinels, List.mem_cons, List.not_mem_nil, or_false] at h
  rcases h with h | h | h | h | h | h <;>
  · have hmap : t.data.map Char.toUpper = (pyUpper t).data := rfl
    rw [h] at hmap
    show String.mk (pyStripL t.data) = t
    rw [pyStrip_eq_self_of_map_upper hmap (by decide) (by decide) (by decide)]

theorem pyStrip_stripPunct_eq_nil {t : String}
    (hall : ∀ c ∈ t.data, c = '.' ∨ c = ',' ∨ c = '!' ∨ c = '?' ∨ isPySpace c = true) :
    pyStrip (stripPunct (pyStrip t)) = "" := by
  show String.mk (pyStripL ((stripPunct (pyStrip t)).data)) = ""
  have hnil : pyStripL ((pyStripL t.data).filter
      (fun c => c != '.' && c != ',' && c != '!' && c != '?')) = [] := by
    apply pyStripL_eq_nil_of_all
    intro c hc
    have hcm := List.mem_filter.mp hc
    have hct : c ∈ t.data := mem_of_mem_pyStripL hcm.1
    have hp := hcm.2
    rcases hall c hct with h | h | h | h | h
    · subst h; simp at hp
    · subst h; simp at hp
    · subst h; simp at hp
    · subst h; simp at hp
    · exact h
  show String.mk (pyStripL ((pyStripL t.data).filter
      (fun c => c != '.' && c != ',' && c != '!' && c != '?'))) = ""
  rw [hnil]

/-- C3: every transcript that is empty, whitespace-only, case-insensitively
equal to a blank-audio sentinel, shorter than 3 characters, or made entirely
of `. , ! ?` and whitespace, makes the pipeline return the `no_audio` error
without invoking Agent 1 or Agent 2 (hence no network call; `process_audio`
writes no diagnostic record on any path). -/
theorem no_audio_guard (t : String) (optimizer coder : String → String)
    (tmpl lang : String)
    (hcond : t = "" ∨ pyStrip t = "" ∨ pyUpper t ∈ blankSentinels ∨
      t.data.length < 3 ∨
      (∀ c ∈ t.data, c = '.' ∨ c = ',' ∨ c = '!' ∨ c = '?' ∨ isPySpace c = true)) :
    process_audio t optimizer coder tmpl lang = ⟨.noAudio, false, false, none⟩ := by
  have hcode : (t = "" ∨ pyStrip t = "") ∨ pyUpper (pyStrip t) ∈ blankSentinels ∨
      ((pyStrip t).data.length < 3 ∨ pyStrip (stripPunct (pyStrip t)) = "") := by
    rcases hcond with h | h | h | h | h
    · exact Or.inl (Or.inl h)
    · exact Or.inl (Or.inr h)
    · rw [pyStrip_eq_self_of_upper_sentinel h]
      exact Or.inr (Or.inl h)
    · refine Or.inr (Or.inr (Or.inl ?_))
      have := length_pyStripL_le t.data
      show (pyStripL t.data).length < 3
      omega
    · refine Or.inr (Or.inr (Or.inr ?_))
      exact pyStrip_stripPunct_eq_nil h
  rw [process_audio]
  rcases hcode with h | h | h
  · rw [if_pos h]
  · by_cases h1 : t = "" ∨ pyStrip t = ""
    · rw [if_pos h1]
    · rw [if_neg h1, if_pos h]
  · by_cases h1 : t = "" ∨ pyStrip t = ""
    · rw [if_pos h1]
    · rw [if_neg h1]
      by_cases h2 : pyUpper (pyStrip t) ∈ blankSentinels
      · rw [if_pos h2]
      · rw [if_neg h2, if_pos h]

theorem no_audio_guard_witness :
    pyUpper "(silence)" ∈ blankSentinels ∧
    process_audio "(silence)" (fun s => s) (fun s => s)
        "Write \x7blanguage\x7d code:" "python" = ⟨.noAudio, false, false, none⟩ :=
  ⟨by decide,
    no_audio_guard "(silence)" (fun s => s) (fun s => s) _ _
      (Or.inr (Or.inr (Or.inl (by decide))))⟩

/-- C1 (counterexample): a concrete run in which Stage 1 fails (the optimizer
returns the empty string): the orchestrator does not return a Stage 1
failure — it invokes Stage 2 anyway and returns its result. -/
theorem stage1_failure_invokes_stage2_counterexample :
    process_audio "make a calculator" (fun _ => "") (fun _ => "x = 1")
        "Write \x7blanguage\x7d code." "python" =
      ⟨.success "x = 1", true, true,
        some "Write Python code.\n\nmake a calculator"⟩ := by
  decide

/-- C1 (amended): when Stage 1 fails (returns a falsy optimized prompt), the
orchestrator substitutes the original transcription and still invokes
Stage 2; the prompt handed to Agent 2 is built from the original transcript. -/
theorem stage1_failure_falls_back (t : String) (optimizer coder : String → String)
    (tmpl lang : String)
    (h1 : ¬(t = "" ∨ pyStrip t = ""))
    (h2 : pyUpper (pyStrip t) ∉ blankSentinels)
    (h3 : ¬((pyStrip t).data.length < 3 ∨ pyStrip (stripPunct (pyStrip t)) = ""))
    (hfail : optimizer t = "")
    (hcfg : ¬ containsSubstrL "Error".data tmpl.data = true) :
    (process_audio t optimizer coder tmpl lang).stage2Invoked = true ∧
    (process_audio t optimizer coder tmpl lang).coderPrompt =
      some (pyReplace tmpl "\x7blanguage\x7d" (pyCapitalize lang) ++ "\n\n" ++ t) := by
  rw [process_audio, if_neg h1, if_neg h2, if_neg h3]
  simp only [hfail, if_pos rfl, if_neg hcfg]
  split_ifs <;> exact ⟨rfl, rfl⟩

theorem stage1_failure_falls_back_witness :
    (¬("sort my list please" = "" ∨ pyStrip "sort my list please" = "")) ∧
    pyUpper (pyStrip "sort my list please") ∉ blankSentinels ∧
    (process_audio "sort my list please" (fun _ => "") (fun _ => "y = 2")
        "Write \x7blanguage\x7d code." "python").stage2Invoked = true ∧
    (process_audio "sort my list please" (fun _ => "") (fun _ => "y = 2")
        "Write \x7blanguage\x7d code." "python").coderPrompt =
      some ("Write Python code." ++ "\n\n" ++ "sort my list please") := by
  refine ⟨by decide, by decide, ?_⟩
  have h := stage1_failure_falls_back "sort my list please" (fun _ => "")
    (fun _ => "y = 2") "Write \x7blanguage\x7d code." "python"
    (by decide) (by decide) (by decide) rfl (by decide)
  exact ⟨h.1, h.2.trans (by decide)⟩

/-! ## Stage 1 / Stage 2 failure recording

`dual_stage_llm.improve_transcript` (lines 211–242) and
`generate_code_from_task` (lines 244–277).  Each loop iteration's `try` body
(the LLM call, fence strip, JSON parse and schema validation) is an oracle:
`.ok task` is a validated task object, `.fail e raw` an exception `e` with
the raw model output `raw`.  The diagnostic write of the terminal branch
(`os.makedirs` + `open(...).write`, lines 234–240 / 271–276) is a `persist`
effect: `.error pe` means it raised `pe`.  There is no handler around that
write, so its exception propagates out of the stage (`.raises`). -/

inductive StageOutcome where
  | returns (j : Json)
  | raises (e : String)

inductive AttemptRes where
  | ok (task : Json)
  | fail (e raw : String)

/-- The failure dictionary of line 241 (`raw` truncated to 100 characters). -/
def improverErrDict (raw debugId : String) : Json :=
  .obj [("error", .str "improver_parse_failed"),
        ("raw", .str (String.mk (raw.data.take 100))),
        ("debug_id", .str debugId)]

/-- The failure dictionary of line 277. -/
def coderErrDict (debugId : String) : Json :=
  .obj [("error", .str "coder_failed"), ("debug_id", .str debugId)]

/-- The terminal branch: write the diagnostic record, then return the
failure dictionary — the write has no exception handler, so a persistence
failure propagates instead. -/
def recordThenFailure (persist : Except String Unit) (failDict : Json) : StageOutcome :=
  match persist with
  | .ok _ => .returns failDict
  | .error pe => .raises pe

/-- The `for attempt in range(CONFIG['LLM_RETRY_COUNT'])` loop of
`improve_transcript`; first `Nat` argument the remaining iterations (fuel,
initially `retryCount`), second the 0-based attempt index. -/
def improve_loop (retryCount : Nat) (oracle : Nat → AttemptRes)
    (persist : Except String Unit) (debugId : String) : Nat → Nat → StageOutcome
  | 0, _ =>
    .returns (.obj [("error", .str "improver_parse_failed"),
      ("raw", .str ""), ("debug_id", .str "")])
  | remaining + 1, i =>
    match oracle i with
    | .ok task => .returns task
    | .fail _ raw =>
      if i < retryCount - 1 then
        improve_loop retryCount oracle persist debugId remaining (i + 1)
      else recordThenFailure persist (improverErrDict raw debugId)

def improve_transcript (retryCount : Nat) (oracle : Nat → AttemptRes)
    (persist : Except String Unit) (debugId : String) : StageOutcome :=
  improve_loop retryCount oracle persist debugId retryCount 0

/-- `generate_code_from_task`: single semantic attempt; `callRes` is the
outcome of `call_ollama_system` (lines 258–267); on any exception the
`except` block persists a record and returns the failure dictionary —
unless persisting itself raises. -/
def generate_code_from_task (callRes : CallOutcome) (persist : Except String Unit)
    (debugId : String) : StageOutcome :=
  match callRes with
  | .returned raw =>
    if pyStrip (strip_fencing raw) = "<CANNOT_COMPLY>" then
      recordThenFailure persist (coderErrDict debugId)
    else .returns (.str (pyStrip (fix_simple_python2_prints (strip_fencing raw)) ++ "\n"))
  | .raised _ => recordThenFailure persist (coderErrDict debugId)

theorem improve_loop_succ (retryCount : Nat) (oracle : Nat → AttemptRes)
    (persist : Except String Unit) (debugId : String) (rem i : Nat) :
    improve_loop retryCount oracle persist debugId (rem + 1) i =
      match oracle i with
      | .ok task => .returns task
      | .fail _ raw =>
        if i < retryCount - 1 then
          improve_loop retryCount oracle persist debugId rem (i + 1)
        else recordThenFailure persist (improverErrDict raw debugId) := rfl

theorem improve_loop_all_fail (retryCount : Nat) (oracle : Nat → AttemptRes)
    (errOf rawOf : Nat → String) (persist : Except String Unit) (debugId : String)
    (hb : ∀ i, oracle i = .fail (errOf i) (rawOf i)) :
    ∀ (remaining i : Nat), remaining + i = retryCount → i < retryCount →
      improve_loop retryCount oracle persist debugId remaining i =
        recordThenFailure persist (improverErrDict (rawOf (retryCount - 1)) debugId) := by
  intro remaining
  induction remaining with
  | zero => intro i hsum hlt; omega
  | succ rem ih =>
    intro i hsum hlt
    rw [improve_loop_succ, hb i]
    show (if i < retryCount - 1 then
        improve_loop retryCount oracle persist debugId rem (i + 1)
      else recordThenFailure persist (improverErrDict (rawOf i) debugId)) =
      recordThenFailure persist (improverErrDict (rawOf (retryCount - 1)) debugId)
    by_cases hc : i < retryCount - 1
    · rw [if_pos hc]
      exact ih (i + 1) (by omega) (by omega)
    · rw [if_neg hc]
      have hi : i = retryCount - 1 := by omega
      rw [hi]

/-- C8 (amended): when the stage fails terminally and persisting the
diagnostic record also fails, the persistence exception propagates out of the
stage (the `StageFailure` value is not returned); only when persistence
succeeds does the stage return its failure dictionary.  This holds for both
`improve_transcript` and `generate_code_from_task`. -/
theorem record_failure_boundary (retryCount : Nat) (oracle : Nat → AttemptRes)
    (errOf rawOf : Nat → String) (debugId pe exn : String)
    (hrc : 1 ≤ retryCount)
    (hb : ∀ i, oracle i = .fail (errOf i) (rawOf i)) :
    improve_transcript retryCount oracle (.error pe) debugId = .raises pe ∧
    improve_transcript retryCount oracle (.ok ()) debugId =
      .returns (improverErrDict (rawOf (retryCount - 1)) debugId) ∧
    generate_code_from_task (.raised exn) (.error pe) debugId = .raises pe ∧
    generate_code_from_task (.raised exn) (.ok ()) debugId =
      .returns (coderErrDict debugId) := by
  refine ⟨?_, ?_, rfl, rfl⟩
  · exact improve_loop_all_fail retryCount oracle errOf rawOf (.error pe) debugId hb
      retryCount 0 (by omega) (by omega)
  · exact improve_loop_all_fail retryCount oracle errOf rawOf (.ok ()) debugId hb
      retryCount 0 (by omega) (by omega)

theorem record_failure_boundary_witness :
    1 ≤ 2 ∧
    improve_transcript 2 (fun _ => .fail "Expecting value" "not json")
      (.error "PermissionError: logs") "dbg1" = .raises "PermissionError: logs" :=
  ⟨by decide,
    (record_failure_boundary 2 (fun _ => .fail "Expecting value" "not json")
      (fun _ => "Expecting value") (fun _ => "not json") "dbg1"
      "PermissionError: logs" "timeout" (by decide) (fun _ => rfl)).1⟩

/-- C8 (counterexample): a terminal Stage 1 failure where writing the
diagnostic record raises — the stage does not return its `StageFailure`
value; the persistence exception escapes the stage boundary. -/
theorem record_failure_raises_counterexample :
    improve_transcript 2 (fun _ => .fail "Expecting value" "not json")
      (.error "PermissionError: [Errno 13] logs") "dbg" =
      .raises "PermissionError: [Errno 13] logs" := rfl

/-! ## Prompt optimizer fallback

`prompt_optimizer.optimize_prompt`, lines 38–118.  One exchange per attempt:
`.reqError` is a `requests.exceptions.RequestException` (line 103),
`.jsonError` a `json.JSONDecodeError` from `response.json()` (line 111),
`.otherError` any other exception (line 114, e.g. the `AttributeError` from
calling `.get`/`.strip` on an unexpected shape), `.response j` a decoded
payload. -/

inductive OptExchange where
  | reqError (e : String)
  | jsonError (e : String)
  | otherError (e : String)
  | response (j : Json)

/-- Lines 92–98: `response_data.get('response', '')`, truthiness test and
`.strip()`.  `none` means the code takes a fallback path and returns the
original transcript: key missing or value falsy (lines 99–101), value not a
dict / not a string (`AttributeError`, caught at line 114). -/
def optResponseText : Json → Option String
  | .obj kvs =>
    match lookupKey kvs "response" with
    | some (.str s) => if s != "" then some (pyStrip s) else none
    | _ => none
  | _ => none

/-- Lines 92–101: what the attempt returns when the exchange produced a
decoded payload `j`. -/
def optRespond (transcribed : String) (j : Json) : CallOutcome :=
  match optResponseText j with
  | some s => .returned s
  | none => .returned transcribed

/-- The `for attempt in range(max_retries)` loop of `optimize_prompt`
(`max_retries = 3`); first `Nat` argument the remaining iterations (fuel,
initially 3), second the 0-based attempt index. -/
def optimize_loop (transcribed : String) (oracle : Nat → OptExchange) :
    Nat → Nat → CallOutcome
  | 0, _ => .returned transcribed
  | remaining + 1, i =>
    match oracle i with
    | .response j => optRespond transcribed j
    | .reqError _ =>
      if i < 3 - 1 then optimize_loop transcribed oracle remaining (i + 1)
      else .returned transcribed
    | .jsonError _ => .returned transcribed
    | .otherError _ => .returned transcribed

/-- `prompt_optimizer.optimize_prompt`, as a function of the transcript,
whether `ollama_endpoint` is configured (line 54), and the exchange oracle. -/
def optimize_prompt (transcribed : String) (endpointConfigured : Bool)
    (oracle : Nat → OptExchange) : CallOutcome :=
  if endpointConfigured then optimize_loop transcribed oracle 3 0
  else .returned transcribed

def isReturnedOutcome : CallOutcome → Bool
  | .returned _ => true
  | .raised _ => false

/-- The attempt's exchange does not produce a usable optimized text. -/
def optAttemptFails : OptExchange → Bool
  | .response j => (optResponseText j).isNone
  | _ => true

theorem optimize_loop_succ (transcribed : String) (oracle : Nat → OptExchange)
    (rem i : Nat) :
    optimize_loop transcribed oracle (rem + 1) i =
      match oracle i with
      | .response j => optRespond transcribed j
      | .reqError _ =>
        if i < 3 - 1 then optimize_loop transcribed oracle rem (i + 1)
        else .returned transcribed
      | .jsonError _ => .returned transcribed
      | .otherError _ => .returned transcribed := rfl

theorem isReturnedOutcome_optRespond (t : String) (j : Json) :
    isReturnedOutcome (optRespond t j) = true := by
  rw [optRespond]
  cases optResponseText j <;> rfl

theorem optRespond_eq_of_none {t : String} {j : Json} (h : optResponseText j = none) :
    optRespond t j = .returned t := by
  rw [optRespond, h]

theorem optimize_loop_returns (transcribed : String) (oracle : Nat → OptExchange) :
    ∀ (remaining i : Nat),
      isReturnedOutcome (optimize_loop transcribed oracle remaining i) = true := by
  intro remaining
  induction remaining with
  | zero => intro i; rfl
  | succ rem ih =>
    intro i
    rw [optimize_loop_succ]
    cases oracle i with
    | response j => exact isReturnedOutcome_optRespond transcribed j
    | reqError e =>
      show isReturnedOutcome (if i < 3 - 1 then
        optimize_loop transcribed oracle rem (i + 1) else .returned transcribed) = true
      by_cases hc : i < 3 - 1
      · rw [if_pos hc]
        exact ih (i + 1)
      · rw [if_neg hc]
        rfl
    | jsonError e => rfl
    | otherError e => rfl

theorem optimize_loop_all_fail (transcribed : String) (oracle : Nat → OptExchange) :
    ∀ (remaining i : Nat), remaining + i = 3 →
      (∀ k, i ≤ k → k < 3 → optAttemptFails (oracle k) = true) →
      optimize_loop transcribed oracle remaining i = .returned transcribed := by
  intro remaining
  induction remaining with
  | zero => intro i _ _; rfl
  | succ rem ih =>
    intro i hsum hfail
    rw [optimize_loop_succ]
    cases ho : oracle i with
    | response j =>
      have hf := hfail i (le_refl i) (by omega)
      rw [ho] at hf
      simp only [optAttemptFails, Option.isNone_iff_eq_none] at hf
      exact optRespond_eq_of_none hf
    | reqError e =>
      show (if i < 3 - 1 then optimize_loop transcribed oracle rem (i + 1)
        else .returned transcribed) = .returned transcribed
      by_cases hc : i < 3 - 1
      · rw [if_pos hc]
        exact ih (i + 1) (by omega) (fun k hk1 hk2 => hfail k (by omega) hk2)
      · rw [if_neg hc]
    | jsonError e => rfl
    | otherError e => rfl

/-- C9: `optimize_prompt` never lets an exception escape, and whenever the
optimization exchange fails in any way — endpoint not configured, transport
failure on every attempt, undecodable response, unexpected exception, or a
response with an empty/unusable `response` field — it returns the original
transcript unchanged. -/
theorem optimizer_fallback (t : String) (ep : Bool) (oracle : Nat → OptExchange) :
    isReturnedOutcome (optimize_prompt t ep oracle) = true ∧
    ((ep = false ∨ ∀ i, i < 3 → optAttemptFails (oracle i) = true) →
      optimize_prompt t ep oracle = .returned t) := by
  constructor
  · rw [optimize_prompt]
    cases ep with
    | true => exact optimize_loop_returns t oracle 3 0
    | false => rfl
  · intro hcond
    rw [optimize_prompt]
    cases ep with
    | false => rfl
    | true =>
      rcases hcond with h | h
      · cases h
      · exact optimize_loop_all_fail t oracle 3 0 (by omega)
          (fun k _ hk2 => h k hk2)

theorem optimizer_fallback_witness :
    isReturnedOutcome (optimize_prompt "add two numbers" true
      (fun _ => .reqError "connection refused")) = true ∧
    optimize_prompt "add two numbers" true (fun _ => .reqError "connection refused") =
      .returned "add two numbers" :=
  ⟨(optimizer_fallback "add two numbers" true _).1,
    (optimizer_fallback "add two numbers" true _).2 (Or.inr (fun _ _ => rfl))⟩

end Voice2Code
